import Mathlib

/-!
Verification development for the SonicVision audio-to-storyboard pipeline.

The development shallowly embeds the two source modules:
* `geminiService.ts` — the Generation Client (`analyzeAudio`, `generateImage`
  with its retry loop);
* the application module (`types.ts` + `App.tsx`) — the data model, the
  Pipeline Orchestrator (`processAudio`), `handleFileUpload` and `reset`.

External service behaviour is abstracted as oracles: `analyzeAudio` receives
the parse outcome of the service response; `generateImage` receives a function
from attempt number to that attempt's outcome; the orchestrator receives a
`RunEnv` giving the outcome of each external call it makes.
-/

namespace Dreamer

/-! ## Data model (types.ts) -/

structure VisualElement where
  name : String
  description : String
  imageUrl : Option String
deriving DecidableEq, Repr

structure Scene where
  timestamp : Int
  description : String
  visual_prompt : String
  timing_rationale : String
  imageUrl : Option String
deriving DecidableEq, Repr

structure ProductionDesign where
  art_style : String
  recurring_elements : List VisualElement
deriving DecidableEq, Repr

structure Storyboard where
  title : String
  production_design : ProductionDesign
  scenes : List Scene
deriving DecidableEq, Repr

inductive AppState where
  | IDLE
  | ANALYZING
  | DESIGNING_ELEMENTS
  | GENERATING_IMAGES
  | READY
  | ERROR
deriving DecidableEq, Repr

/-! ## Generation Client (geminiService.ts)

`analyzeAudio` (lines 88-96): the service response has already been awaited;
its local processing is `JSON.parse(response.text || "{}")` (modelled as an
`Option RawAnalysis`, `none` when `JSON.parse` throws), then
`if (result.scenes) result.scenes.sort((a, b) => a.timestamp - b.timestamp)`,
then `return result as Storyboard` — an unchecked cast, so top-level fields
may be absent, which `RawAnalysis` records with `Option` fields. -/

structure RawAnalysis where
  title : Option String
  production_design : Option ProductionDesign
  scenes : Option (List Scene)
deriving DecidableEq, Repr

instance : IsTotal Scene (fun a b => a.timestamp ≤ b.timestamp) :=
  ⟨fun a b => Int.le_total a.timestamp b.timestamp⟩

instance : IsTrans Scene (fun a b => a.timestamp ≤ b.timestamp) :=
  ⟨fun _ _ _ h h' => le_trans h h'⟩

/-- `result.scenes.sort((a, b) => a.timestamp - b.timestamp)`: an ascending
sort of the scenes by timestamp. -/
def sortScenes (l : List Scene) : List Scene :=
  List.insertionSort (fun a b => a.timestamp ≤ b.timestamp) l

/-- `analyzeAudio`, lines 88-96: on a JSON.parse failure the catch block
throws the analysis error; otherwise the scenes field (when present — `[]`
is truthy in JS, absence is not) is sorted in place and the object is
returned unvalidated (`result as Storyboard`). -/
def analyzeAudio (parsed : Option RawAnalysis) : Except String RawAnalysis :=
  match parsed with
  | none => .error "Failed to interpret audio storyboard."
  | some r => .ok { r with scenes := r.scenes.map sortScenes }

/-! ### generateImage (lines 103-138)

One attempt's interaction with the service: either the awaited call throws,
or it yields a response with a list of candidates, each with optional
content parts carrying optional inline image data. -/

structure GenPart where
  inlineData : Option String
deriving DecidableEq, Repr

structure Candidate where
  content : Option (List GenPart)
deriving DecidableEq, Repr

inductive AttemptOutcome where
  | response (candidates : List Candidate)
  | thrown (msg : String)
deriving DecidableEq, Repr

/-- The `for (const part of candidate.content?.parts || [])` scan: first part
carrying inline data. -/
def firstImage : List GenPart → Option String
  | [] => none
  | p :: ps =>
    match p.inlineData with
    | some d => some d
    | none => firstImage ps

/-- The body of one attempt of `generateImage` (lines 105-131): throws are
errors; `response.candidates?.[0]` missing throws "No output candidate.";
the first inline-data part is returned as a data URL; otherwise
"No image data in response." is thrown. -/
def attemptBody : AttemptOutcome → Except String String
  | .thrown m => .error m
  | .response cands =>
    match cands.head? with
    | none => .error "No output candidate."
    | some c =>
      match firstImage (c.content.getD []) with
      | some d => .ok ("data:image/png;base64," ++ d)
      | none => .error "No image data in response."

/-- Outcome of the `for (let attempt = 0; attempt <= retries; attempt++)`
loop: a `return` with the image, a `throw` from inside the loop, or normal
loop exit (guard false). `attempts` counts executed attempts and `delays`
records each `await setTimeout` duration in ms, in order. -/
inductive LoopOutcome where
  | returned (img : String) (attempts : Nat) (delays : List Nat)
  | threw (e : String) (attempts : Nat) (delays : List Nat)
  | fellThrough
deriving DecidableEq, Repr

/-- The retry loop of `generateImage`, lines 104-136. `remaining` is the
number of loop iterations the guard still allows, i.e. `retries + 1 -
attempt`; the guard `attempt <= retries` is false exactly when `remaining =
0`. On an attempt failure, `if (attempt === retries) throw err` ends the
loop; otherwise the code waits `1500 * (attempt + 1)` ms and iterates. -/
def genLoop (outcomes : Nat → AttemptOutcome) (retries : Nat) :
    Nat → Nat → LoopOutcome
  | _, 0 => .fellThrough
  | attempt, remaining + 1 =>
    match attemptBody (outcomes attempt) with
    | .ok img => .returned img 1 []
    | .error e =>
      if attempt = retries then .threw e 1 []
      else
        match genLoop outcomes retries (attempt + 1) remaining with
        | .returned img n ds => .returned img (n + 1) (1500 * (attempt + 1) :: ds)
        | .threw e2 n ds => .threw e2 (n + 1) (1500 * (attempt + 1) :: ds)
        | .fellThrough => .fellThrough

/-- `generateImage(prompt, referenceImages, retries)`, lines 103-138: run the
loop from attempt 0; a normal loop exit would reach the trailing
`throw new Error("Generation failed.")` on line 137. -/
def generateImage (outcomes : Nat → AttemptOutcome) (retries : Nat) :
    Except String String :=
  match genLoop outcomes retries 0 (retries + 1) with
  | .returned img _ _ => .ok img
  | .threw e _ _ => .error e
  | .fellThrough => .error "Generation failed."

/-- The backoff delays issued after `n` consecutive failures starting at
0-indexed attempt `attempt`: `1500 * (attempt + 1), 1500 * (attempt + 2), ...`. -/
def delaysFrom (attempt : Nat) : Nat → List Nat
  | 0 => []
  | n + 1 => 1500 * (attempt + 1) :: delaysFrom (attempt + 1) n

/-! ## Pipeline Orchestrator (App component)

The component's React state is the `Model`; every state-setter call is
modelled as producing a new `Model` value, and the sequence of models
produced by the setters of a run is its list of published snapshots.
External calls are abstracted as a `RunEnv`: the outcome of the one
`analyzeAudio` call and, for each 0-indexed loop position, the outcome of
the corresponding `generateImage` call (after its internal retries). -/

structure AudioFile where
  name : String
  type : String
deriving DecidableEq, Repr

structure Model where
  state : AppState
  audioFile : Option AudioFile
  audioUrl : Option String
  storyboard : Option Storyboard
  currentSceneIndex : Nat
  progress : Nat
  error : Option String
deriving DecidableEq, Repr

structure RunEnv where
  analysis : Except String Storyboard
  elementGen : Nat → Except String String
  sceneGen : Nat → Except String String

/-- `URL.createObjectURL(file)`, abstracted. -/
def objectUrl (f : AudioFile) : String := "blob:" ++ f.name

/-- JS `s.startsWith(p)`: `p` is a prefix of the characters of `s`. -/
def strStartsWith (s p : String) : Bool := p.data.isPrefixOf s.data

/-- `handleFileUpload` (App, lines 54-65): ignore an absent file; reject a
file whose declared media type does not start with "audio/" by setting the
validation error only; otherwise store the file, its object URL, and clear
the error. -/
def handleFileUpload (m : Model) (file : Option AudioFile) : Model :=
  match file with
  | none => m
  | some f =>
    if !strStartsWith f.type "audio/" then
      { m with error := some "Please upload a valid audio file." }
    else
      { m with audioFile := some f, audioUrl := some (objectUrl f), error := none }

/-- `Math.round((num / den) * 100)` for the progress percentage, where the
argument is the non-negative rational `num / den`: JS `Math.round x` is
`floor (x + 1/2)`, i.e. `(2 * num + den) / (2 * den)` in integer division. -/
def jsRound (num den : Nat) : Nat := (2 * num + den) / (2 * den)

/-- Result of a phase loop: the model when the loop ends, the snapshots it
published, the accumulator array, and the error it threw, if any. -/
structure Phase2Out where
  final : Model
  trace : List Model
  updatedElements : List VisualElement
  thrown : Option String
deriving DecidableEq, Repr

/-- Phase 2 loop (App, lines 88-104), iterating over the remaining
elements, `i` the current index, `updated` the accumulator
`updatedElements`. Each iteration first publishes the progress update, then
awaits `generateImage`; a failure aborts the whole `try` block (`thrown`);
on success the element with its image is pushed and the storyboard is
republished with `recurring_elements` replaced by the accumulator. -/
def phase2 (env : RunEnv) (total : Nat) :
    Nat → List VisualElement → List VisualElement → Model → Phase2Out
  | _, updated, [], m => ⟨m, [], updated, none⟩
  | i, updated, el :: rest, m =>
    let m1 := { m with progress := jsRound (100 * (i + 1)) total }
    match env.elementGen i with
    | .error e => ⟨m1, [m1], updated, some e⟩
    | .ok url =>
      let updated' := updated ++ [{ el with imageUrl := some url }]
      let m2 := { m1 with
        storyboard := m1.storyboard.map fun p =>
          { p with production_design :=
            { p.production_design with recurring_elements := updated' } } }
      let r := phase2 env total (i + 1) updated' rest m2
      { r with trace := m1 :: m2 :: r.trace }

structure Phase3Out where
  final : Model
  trace : List Model
  thrown : Option String
deriving DecidableEq, Repr

/-- Phase 3 loop (App, lines 112-122): like Phase 2 over the scenes, except
that the republished storyboard keeps all scenes: the accumulator of
rendered scenes followed by `sb.scenes.slice(i + 1)` of the Phase 1
storyboard's scenes `sbScenes`. -/
def phase3 (env : RunEnv) (sbScenes : List Scene) (total : Nat) :
    Nat → List Scene → List Scene → Model → Phase3Out
  | _, _, [], m => ⟨m, [], none⟩
  | i, updatedScenes, scene :: rest, m =>
    let m1 := { m with progress := jsRound (100 * (i + 1)) total }
    match env.sceneGen i with
    | .error e => ⟨m1, [m1], some e⟩
    | .ok url =>
      let updated' := updatedScenes ++ [{ scene with imageUrl := some url }]
      let m2 := { m1 with
        storyboard := m1.storyboard.map fun p =>
          { p with scenes := updated' ++ sbScenes.drop (i + 1) } }
      let r := phase3 env sbScenes total (i + 1) updated' rest m2
      { r with trace := m1 :: m2 :: r.trace }

/-- `err.message || "An error occurred."` of the catch block (line 126). -/
def errMessage (e : String) : String :=
  if e.isEmpty then "An error occurred." else e

/-- A run's outcome: the final model and the published snapshots in order. -/
structure RunOut where
  final : Model
  trace : List Model
deriving DecidableEq, Repr

/-- The catch block of `processAudio` (lines 125-128): publish the error
message, then the ERROR state. -/
def catchBlock (e : String) (m : Model) : RunOut :=
  let m1 := { m with error := some (errMessage e) }
  let m2 := { m1 with state := AppState.ERROR }
  ⟨m2, [m1, m2]⟩

/-! The successive states produced by the setter calls of `processAudio`
(lines 71-73, 83, 86), named so the run can be decomposed in proofs. -/

/-- After `setState(AppState.ANALYZING)` (line 71). -/
def mAnalyzing (m : Model) : Model := { m with state := AppState.ANALYZING }

/-- After `setError(null)` (line 72). -/
def mCleared (m : Model) : Model := { mAnalyzing m with error := none }

/-- After `setProgress(5)` (line 73). -/
def mProg5 (m : Model) : Model := { mCleared m with progress := 5 }

/-- After `setStoryboard(sb)` (line 83). -/
def mStored (m : Model) (sb : Storyboard) : Model :=
  { mProg5 m with storyboard := some sb }

/-- After `setState(AppState.DESIGNING_ELEMENTS)` (line 86). -/
def mDesigning (m : Model) (sb : Storyboard) : Model :=
  { mStored m sb with state := AppState.DESIGNING_ELEMENTS }

/-- The whole Phase 2 loop, entered at index 0 with an empty accumulator. -/
def phase2Start (env : RunEnv) (m : Model) (sb : Storyboard) : Phase2Out :=
  phase2 env sb.production_design.recurring_elements.length 0 []
    sb.production_design.recurring_elements (mDesigning m sb)

/-- After `setState(AppState.GENERATING_IMAGES)` (line 107). -/
def mGenerating (env : RunEnv) (m : Model) (sb : Storyboard) : Model :=
  { (phase2Start env m sb).final with state := AppState.GENERATING_IMAGES }

/-- `refImages` (line 108): the element images collected for Phase 3. -/
def refImages (env : RunEnv) (m : Model) (sb : Storyboard) : List String :=
  (phase2Start env m sb).updatedElements.filterMap fun el => el.imageUrl

/-- The whole Phase 3 loop, entered at index 0 with an empty accumulator. -/
def phase3Start (env : RunEnv) (m : Model) (sb : Storyboard) : Phase3Out :=
  phase3 env sb.scenes sb.scenes.length 0 [] sb.scenes (mGenerating env m sb)

/-- After `setState(AppState.READY)` (line 124). -/
def mReady (env : RunEnv) (m : Model) (sb : Storyboard) : Model :=
  { (phase3Start env m sb).final with state := AppState.READY }

/-- `processAudio` (App, lines 67-129): guard on a selected audio file, then
the three phases inside one `try`, any thrown error landing in the catch
block. -/
def processAudio (env : RunEnv) (m : Model) : RunOut :=
  match m.audioFile with
  | none => ⟨m, []⟩
  | some _ =>
    match env.analysis with
    | .error e =>
      let c := catchBlock e (mProg5 m)
      ⟨c.final, [mAnalyzing m, mCleared m, mProg5 m] ++ c.trace⟩
    | .ok sb =>
      let r2 := phase2Start env m sb
      match r2.thrown with
      | some e =>
        let c := catchBlock e r2.final
        ⟨c.final,
         [mAnalyzing m, mCleared m, mProg5 m, mStored m sb, mDesigning m sb] ++
           r2.trace ++ c.trace⟩
      | none =>
        let r3 := phase3Start env m sb
        match r3.thrown with
        | some e =>
          let c := catchBlock e r3.final
          ⟨c.final,
           [mAnalyzing m, mCleared m, mProg5 m, mStored m sb, mDesigning m sb] ++
             r2.trace ++ [mGenerating env m sb] ++ r3.trace ++ c.trace⟩
        | none =>
          ⟨mReady env m sb,
           [mAnalyzing m, mCleared m, mProg5 m, mStored m sb, mDesigning m sb] ++
             r2.trace ++ [mGenerating env m sb] ++ r3.trace ++ [mReady env m sb]⟩

/-- `reset` (App, lines 131-139): clear every piece of run state. -/
def reset (_m : Model) : Model :=
  { state := AppState.IDLE
    audioFile := none
    audioUrl := none
    storyboard := none
    currentSceneIndex := 0
    progress := 0
    error := none }

/-! ### Observables used by the claims -/

/-- The image attached to recurring element `k` in a snapshot. -/
def elemImage (m : Model) (k : Nat) : Option String :=
  m.storyboard.bind fun sb =>
    (sb.production_design.recurring_elements.get? k).bind fun el => el.imageUrl

/-- The image attached to scene `k` in a snapshot. -/
def sceneImage (m : Model) (k : Nat) : Option String :=
  m.storyboard.bind fun sb => (sb.scenes.get? k).bind fun sc => sc.imageUrl

/-- Snapshot `m'` keeps every element and scene image that snapshot `m`
already carries. -/
def imageMono (m m' : Model) : Prop :=
  (∀ k img, elemImage m k = some img → elemImage m' k = some img) ∧
  (∀ k img, sceneImage m k = some img → sceneImage m' k = some img)

instance : IsTrans Model imageMono :=
  ⟨fun _ _ _ h h' =>
    ⟨fun k img hk => h'.1 k img (h.1 k img hk),
     fun k img hk => h'.2 k img (h.2 k img hk)⟩⟩

/-- A storyboard carrying no generated image yet, as Phase 1 produces. -/
def cleanStoryboard (sb : Storyboard) : Prop :=
  (∀ el ∈ sb.production_design.recurring_elements, el.imageUrl = none) ∧
  (∀ sc ∈ sb.scenes, sc.imageUrl = none)

/-- Collapse consecutive duplicates of a state sequence, leaving the order
of the distinct states traversed. -/
def dedupStates : List AppState → List AppState
  | [] => []
  | [a] => [a]
  | a :: b :: rest =>
    if a = b then dedupStates (b :: rest) else a :: dedupStates (b :: rest)

/-- The model of a freshly mounted component (all useState initial values). -/
def initialModel : Model :=
  { state := AppState.IDLE
    audioFile := none
    audioUrl := none
    storyboard := none
    currentSceneIndex := 0
    progress := 0
    error := none }

/-! ## Claims about the Generation Client -/

/-- A scene at timestamp `t`, with placeholder text fields. -/
def sceneAt (t : Int) (d : String) : Scene :=
  { timestamp := t, description := d, visual_prompt := "v",
    timing_rationale := "r", imageUrl := none }

/-- The analysis response of the spec's ordering scenario: scenes listed at
timestamps 5 then 0. -/
def scenarioOutOfOrder : RawAnalysis :=
  { title := some "X"
    production_design := some
      { art_style := "noir"
        recurring_elements := [{ name := "Hero", description := "...", imageUrl := none }] }
    scenes := some [sceneAt 5 "late", sceneAt 0 "early"] }

/-- C1: every storyboard accepted by `analyzeAudio` has its scenes array
sorted ascending by timestamp, whatever order the service returned them in;
in particular the response with scenes at timestamps [5, 0] is stored in
order [0, 5]. -/
theorem analyzeAudio_scenes_sorted :
    (∀ (parsed : Option RawAnalysis) (r : RawAnalysis),
      analyzeAudio parsed = .ok r →
      ∀ l, r.scenes = some l →
        l.Pairwise fun a b => a.timestamp ≤ b.timestamp) ∧
    analyzeAudio (some scenarioOutOfOrder) =
      .ok { scenarioOutOfOrder with scenes := some [sceneAt 0 "early", sceneAt 5 "late"] } := by
  constructor
  · intro parsed r h l hl
    match parsed with
    | none => simp [analyzeAudio] at h
    | some r0 =>
      simp only [analyzeAudio, Except.ok.injEq] at h
      subst h
      match hs : r0.scenes with
      | none => rw [hs] at hl; simp at hl
      | some l0 =>
        rw [hs] at hl
        simp only [Option.map_some', Option.some.injEq] at hl
        subst hl
        exact List.sorted_insertionSort _ l0
  · rfl

/-- Witness for C1 at the concrete out-of-order scenario. -/
theorem analyzeAudio_scenes_sorted_witness :
    ([sceneAt 0 "early", sceneAt 5 "late"] : List Scene).Pairwise
      (fun a b => a.timestamp ≤ b.timestamp) :=
  analyzeAudio_scenes_sorted.1 (some scenarioOutOfOrder)
    { scenarioOutOfOrder with scenes := some [sceneAt 0 "early", sceneAt 5 "late"] }
    analyzeAudio_scenes_sorted.2 _ rfl

/-- C3 counterexample: the response text "\x7b\x7d" parses to an object with
title, production_design and scenes all absent, yet `analyzeAudio` accepts
it and returns it unchanged — no analysis error is raised for missing
required fields. -/
theorem analyzeAudio_accepts_missing_fields :
    analyzeAudio (some { title := none, production_design := none, scenes := none }) =
      .ok { title := none, production_design := none, scenes := none } := rfl

/-- C3 amended: `analyzeAudio` fails — with the analysis error, and without
any retry (it consumes exactly the one response) — precisely when the
response is malformed JSON; a parseable response is returned as-is with its
fields unvalidated (scenes sorted when present), so missing required fields
are not rejected. -/
theorem analyzeAudio_error_iff_malformed :
    (∀ parsed : Option RawAnalysis,
      (∃ e, analyzeAudio parsed = .error e) ↔ parsed = none) ∧
    (∀ (parsed : Option RawAnalysis) (e : String),
      analyzeAudio parsed = .error e → e = "Failed to interpret audio storyboard.") ∧
    (∀ r : RawAnalysis,
      analyzeAudio (some r) = .ok { r with scenes := r.scenes.map sortScenes }) := by
  refine ⟨fun parsed => ⟨fun ⟨e, he⟩ => ?_, fun h => ?_⟩, fun parsed e he => ?_, fun r => rfl⟩
  · match parsed with
    | none => rfl
    | some r => simp [analyzeAudio] at he
  · subst h; exact ⟨_, rfl⟩
  · match parsed with
    | none => simpa [analyzeAudio] using he.symm
    | some r => simp [analyzeAudio] at he

/-- Witness for the amended C3: the malformed response is rejected with the
analysis error, the empty object is accepted. -/
theorem analyzeAudio_error_iff_malformed_witness :
    (∃ e, analyzeAudio none = .error e) ∧
    analyzeAudio (some { title := none, production_design := none, scenes := none }) =
      .ok { title := none, production_design := none,
            scenes := (none : Option (List Scene)).map sortScenes } :=
  ⟨(analyzeAudio_error_iff_malformed.1 none).mpr rfl,
   analyzeAudio_error_iff_malformed.2.2 { title := none, production_design := none, scenes := none }⟩

/-! ### The retry loop of generateImage -/

lemma delaysFrom_eq :
    ∀ (n attempt : Nat),
      delaysFrom attempt n = (List.range n).map fun j => 1500 * (attempt + j + 1) := by
  intro n
  induction n with
  | zero => intro attempt; rfl
  | succ n ih =>
    intro attempt
    rw [delaysFrom, List.range_succ_eq_map, List.map_cons, List.map_map, ih (attempt + 1)]
    refine congrArg₂ _ (by omega) ?_
    refine congrArg₂ _ (funext fun j => ?_) rfl
    simp only [Function.comp]
    omega

lemma genLoop_success (outcomes : Nat → AttemptOutcome) (retries : Nat) (img : String) :
    ∀ (n attempt : Nat), attempt + n ≤ retries →
      (∀ i, attempt ≤ i → i < attempt + n → ∃ e, attemptBody (outcomes i) = .error e) →
      attemptBody (outcomes (attempt + n)) = .ok img →
      genLoop outcomes retries attempt (retries + 1 - attempt) =
        .returned img (n + 1) (delaysFrom attempt n) := by
  intro n
  induction n with
  | zero =>
    intro attempt hle hfail hsucc
    obtain ⟨f, hf⟩ : ∃ f, retries + 1 - attempt = f + 1 := ⟨retries - attempt, by omega⟩
    rw [Nat.add_zero] at hsucc
    rw [hf, genLoop]
    split
    next img' heq => rw [hsucc] at heq; cases heq; rfl
    next e heq => rw [hsucc] at heq; cases heq
  | succ n ih =>
    intro attempt hle hfail hsucc
    obtain ⟨f, hf⟩ : ∃ f, retries + 1 - attempt = f + 1 := ⟨retries - attempt, by omega⟩
    obtain ⟨e, he⟩ := hfail attempt le_rfl (by omega)
    have hrec := ih (attempt + 1) (by omega)
      (fun i h1 h2 => hfail i (by omega) (by omega))
      (by rw [show attempt + 1 + n = attempt + (n + 1) from by omega]; exact hsucc)
    rw [show retries + 1 - (attempt + 1) = f from by omega] at hrec
    rw [hf, genLoop]
    split
    next img' heq => rw [he] at heq; cases heq
    next e' heq =>
      rw [he] at heq; cases heq
      rw [if_neg (by omega : ¬ attempt = retries), hrec,
        show delaysFrom attempt (n + 1) =
          1500 * (attempt + 1) :: delaysFrom (attempt + 1) n from rfl]

lemma genLoop_allfail (outcomes : Nat → AttemptOutcome) (retries : Nat) (errs : Nat → String) :
    ∀ (n attempt : Nat), attempt + n = retries →
      (∀ i, attempt ≤ i → i ≤ retries → attemptBody (outcomes i) = .error (errs i)) →
      genLoop outcomes retries attempt (retries + 1 - attempt) =
        .threw (errs retries) (n + 1) (delaysFrom attempt n) := by
  intro n
  induction n with
  | zero =>
    intro attempt heqa hfail
    obtain ⟨f, hf⟩ : ∃ f, retries + 1 - attempt = f + 1 := ⟨retries - attempt, by omega⟩
    have he := hfail attempt le_rfl (by omega)
    have hretr : attempt = retries := by omega
    subst hretr
    rw [hf, genLoop]
    split
    next img' h2 => rw [he] at h2; cases h2
    next e' h2 =>
      rw [he] at h2; cases h2
      rw [if_pos rfl]
      rfl
  | succ n ih =>
    intro attempt heqa hfail
    obtain ⟨f, hf⟩ : ∃ f, retries + 1 - attempt = f + 1 := ⟨retries - attempt, by omega⟩
    have he := hfail attempt le_rfl (by omega)
    have hrec := ih (attempt + 1) (by omega)
      (fun i h1 h2 => hfail i (by omega) h2)
    rw [show retries + 1 - (attempt + 1) = f from by omega] at hrec
    rw [hf, genLoop]
    split
    next img' h2 => rw [he] at h2; cases h2
    next e' h2 =>
      rw [he] at h2; cases h2
      rw [if_neg (by omega : ¬ attempt = retries), hrec,
        show delaysFrom attempt (n + 1) =
          1500 * (attempt + 1) :: delaysFrom (attempt + 1) n from rfl]

/-- C2: with `k ≤ retries` initial failures followed by a success, the call
returns the success value after `k + 1` attempts with backoff delays
`1500 * 1, ..., 1500 * k` ms; with failures on all `retries + 1` attempts,
it makes exactly `retries + 1` attempts, waits `1500 * 1, ...,
1500 * retries` ms between them, and propagates the final attempt's error. -/
theorem generateImage_retry_contract :
    (∀ (outcomes : Nat → AttemptOutcome) (retries k : Nat) (img : String),
      k ≤ retries →
      (∀ i, i < k → ∃ e, attemptBody (outcomes i) = .error e) →
      attemptBody (outcomes k) = .ok img →
      genLoop outcomes retries 0 (retries + 1) =
        .returned img (k + 1) ((List.range k).map fun i => 1500 * (i + 1)) ∧
      generateImage outcomes retries = .ok img) ∧
    (∀ (outcomes : Nat → AttemptOutcome) (retries : Nat) (errs : Nat → String),
      (∀ i, i ≤ retries → attemptBody (outcomes i) = .error (errs i)) →
      genLoop outcomes retries 0 (retries + 1) =
        .threw (errs retries) (retries + 1) ((List.range retries).map fun i => 1500 * (i + 1)) ∧
      generateImage outcomes retries = .error (errs retries)) := by
  have hdelays : ∀ n : Nat,
      delaysFrom 0 n = (List.range n).map fun i => 1500 * (i + 1) := by
    intro n; rw [delaysFrom_eq]; simp
  constructor
  · intro outcomes retries k img hk hfail hsucc
    have h := genLoop_success outcomes retries img k 0 (by omega)
      (fun i h1 h2 => hfail i (by omega)) (by rw [Nat.zero_add]; exact hsucc)
    rw [Nat.sub_zero, hdelays] at h
    exact ⟨h, by rw [generateImage, h]⟩
  · intro outcomes retries errs hfail
    have h := genLoop_allfail outcomes retries errs retries 0 (by omega)
      (fun i h1 h2 => hfail i h2)
    rw [Nat.sub_zero, hdelays] at h
    exact ⟨h, by rw [generateImage, h]⟩

/-- Concrete oracle: attempt 0 throws, every later attempt returns a
response with one inline image. -/
def retryOutcomes : Nat → AttemptOutcome
  | 0 => .thrown "transient"
  | _ + 1 => .response [{ content := some [{ inlineData := some "D" }] }]

/-- Witness for C2: one failure then a success, with default retries = 2. -/
theorem generateImage_retry_contract_witness :
    genLoop retryOutcomes 2 0 3 =
      .returned "data:image/png;base64,D" 2 ((List.range 1).map fun i => 1500 * (i + 1)) ∧
    generateImage retryOutcomes 2 = .ok "data:image/png;base64,D" :=
  generateImage_retry_contract.1 retryOutcomes 2 1 "data:image/png;base64,D"
    (by omega)
    (fun i hi => match i, hi with
      | 0, _ => ⟨"transient", rfl⟩)
    rfl

lemma genLoop_never_falls_through (outcomes : Nat → AttemptOutcome) (retries : Nat) :
    ∀ (remaining attempt : Nat), attempt + remaining = retries + 1 → attempt ≤ retries →
      genLoop outcomes retries attempt remaining ≠ .fellThrough := by
  intro remaining
  induction remaining with
  | zero => intro attempt h1 h2; omega
  | succ remaining ih =>
    intro attempt h1 h2
    rw [genLoop]
    split
    next img heq => exact fun h => LoopOutcome.noConfusion h
    next e heq =>
      by_cases hr : attempt = retries
      · rw [if_pos hr]; exact fun h => LoopOutcome.noConfusion h
      · rw [if_neg hr]
        have hne := ih (attempt + 1) (by omega) (by omega)
        match hrec : genLoop outcomes retries (attempt + 1) remaining with
        | .returned img n ds => exact fun h => LoopOutcome.noConfusion h
        | .threw e2 n ds => exact fun h => LoopOutcome.noConfusion h
        | .fellThrough => exact absurd hrec hne

/-- C10: the retry loop always ends by returning an image or rethrowing the
error of an attempt from inside the loop, and `generateImage` surfaces
exactly that outcome — the loop never exits normally, so the trailing
generic "Generation failed." throw on line 137 is unreachable. -/
theorem generateImage_trailing_throw_unreachable :
    ∀ (outcomes : Nat → AttemptOutcome) (retries : Nat),
      (∃ img n ds, genLoop outcomes retries 0 (retries + 1) = .returned img n ds ∧
        generateImage outcomes retries = .ok img) ∨
      (∃ e n ds, genLoop outcomes retries 0 (retries + 1) = .threw e n ds ∧
        generateImage outcomes retries = .error e) := by
  intro outcomes retries
  match hrec : genLoop outcomes retries 0 (retries + 1) with
  | .returned img n ds =>
    exact Or.inl ⟨img, n, ds, rfl, by rw [generateImage, hrec]⟩
  | .threw e n ds =>
    exact Or.inr ⟨e, n, ds, rfl, by rw [generateImage, hrec]⟩
  | .fellThrough =>
    exact absurd hrec
      (genLoop_never_falls_through outcomes retries (retries + 1) 0 (by omega) (by omega))

/-! ## Claims about reset and input validation -/

/-- C8: `reset` from any state yields the same post-state — Idle, no
storyboard, progress 0, no error — so it is idempotent. -/
theorem reset_idempotent :
    ∀ m : Model,
      reset m = initialModel ∧
      (reset m).state = AppState.IDLE ∧
      (reset m).storyboard = none ∧
      (reset m).progress = 0 ∧
      (reset m).error = none ∧
      reset (reset m) = reset m :=
  fun _ => ⟨rfl, rfl, rfl, rfl, rfl, rfl⟩

/-- C9: a file whose declared media type is not an audio type is rejected:
only the validation error message is set — the pipeline state stays Idle,
the file is not accepted — and if no audio file had been accepted before,
`processAudio` publishes nothing and consults no part of the service
environment (no network call). -/
theorem handleFileUpload_rejects_non_audio :
    ∀ (m : Model) (f : AudioFile), strStartsWith f.type "audio/" = false →
      handleFileUpload m (some f) =
        { m with error := some "Please upload a valid audio file." } ∧
      (handleFileUpload m (some f)).state = m.state ∧
      (handleFileUpload m (some f)).audioFile = m.audioFile ∧
      (handleFileUpload m (some f)).storyboard = m.storyboard ∧
      (m.audioFile = none → ∀ env : RunEnv,
        processAudio env (handleFileUpload m (some f)) =
          ⟨handleFileUpload m (some f), []⟩) := by
  intro m f hf
  have hrej : handleFileUpload m (some f) =
      { m with error := some "Please upload a valid audio file." } := by
    rw [handleFileUpload, hf]
    rfl
  refine ⟨hrej, by rw [hrej], by rw [hrej], by rw [hrej], fun hnone env => ?_⟩
  rw [hrej, processAudio]
  rw [show ({ m with error := some "Please upload a valid audio file." } : Model).audioFile
      = m.audioFile from rfl, hnone]

/-- Witness for C9: from the fresh Idle model, a text file is rejected with
the validation message, the state stays Idle and the run makes no service
call. -/
theorem handleFileUpload_rejects_non_audio_witness :
    handleFileUpload initialModel (some { name := "notes.txt", type := "text/plain" }) =
      { initialModel with error := some "Please upload a valid audio file." } ∧
    (handleFileUpload initialModel (some { name := "notes.txt", type := "text/plain" })).state =
      initialModel.state ∧
    (handleFileUpload initialModel
        (some { name := "notes.txt", type := "text/plain" })).audioFile =
      initialModel.audioFile ∧
    (handleFileUpload initialModel
        (some { name := "notes.txt", type := "text/plain" })).storyboard =
      initialModel.storyboard ∧
    (initialModel.audioFile = none → ∀ env : RunEnv,
      processAudio env
          (handleFileUpload initialModel (some { name := "notes.txt", type := "text/plain" })) =
        ⟨handleFileUpload initialModel (some { name := "notes.txt", type := "text/plain" }), []⟩) :=
  handleFileUpload_rejects_non_audio initialModel
    { name := "notes.txt", type := "text/plain" } (by decide)

/-! ## Claims about the orchestrator phases -/

/-- A model that has accepted an mp3 file and awaits Start Production. -/
def readyModel : Model :=
  { initialModel with audioFile := some { name := "song.mp3", type := "audio/mpeg" } }

/-- A clean single-element, no-scene storyboard as Phase 1 would store it. -/
def sbOneElement : Storyboard :=
  { title := "T"
    production_design :=
      { art_style := "noir"
        recurring_elements := [{ name := "Hero", description := "the hero", imageUrl := none }] }
    scenes := [] }

/-- Environment in which the single element's `generateImage` call throws on
all three attempts (default retries = 2), computed through the Generation
Client's own retry loop. -/
def envElementFails : RunEnv :=
  { analysis := .ok sbOneElement
    elementGen := fun _ => generateImage (fun _ => .thrown "boom") 2
    sceneGen := fun _ => .ok "imgS" }

/-- C5 counterexample: `setProgress` runs before the element's generation
attempt, not upon its success. In the single-failing-element run the
published progress values are 0, 0, 5, 5, 5, 100, 100, 100: progress
reaches 100 although the element's generation fails and its image stays
absent, instead of staying frozen at 5, the last value before the failed
element was processed. -/
theorem progress_updated_before_generation :
    (processAudio envElementFails readyModel).final.state = AppState.ERROR ∧
    elemImage (processAudio envElementFails readyModel).final 0 = none ∧
    ((processAudio envElementFails readyModel).trace.map fun m => m.progress) =
      [0, 0, 5, 5, 5, 100, 100, 100] ∧
    (processAudio envElementFails readyModel).final.progress = 100 ∧
    ¬ (processAudio envElementFails readyModel).final.progress = 5 := by decide

/-- C5 amended: in Phase 2 progress is updated to round(100 * (i+1)/total)
immediately before element i's generation attempt, so a failing element's
run ends in Error with the element's image still absent and progress
already counting the failed element: for a single-element storyboard whose
generation fails, progress ends at 100 (not at its value from before the
element was processed). -/
theorem phase2_failure_progress :
    ∀ (env : RunEnv) (m : Model) (f : AudioFile) (sb : Storyboard)
      (el : VisualElement) (e : String),
      m.audioFile = some f →
      env.analysis = .ok sb →
      sb.production_design.recurring_elements = [el] →
      env.elementGen 0 = .error e →
      (processAudio env m).final =
        { m with
            state := AppState.ERROR
            storyboard := some sb
            progress := 100
            error := some (errMessage e) } ∧
      elemImage (processAudio env m).final 0 = el.imageUrl := by
  intro env m f sb el e haf hana helems hgen
  have h : (processAudio env m).final =
      { m with
          state := AppState.ERROR
          storyboard := some sb
          progress := 100
          error := some (errMessage e) } := by
    simp only [processAudio, haf, hana, phase2Start, mDesigning, mStored, mProg5,
      mCleared, mAnalyzing, helems, phase2, hgen, catchBlock]
    norm_num [jsRound]
  rw [h]
  refine ⟨rfl, ?_⟩
  simp [elemImage, helems]

/-- Witness for the amended C5, at the concrete single-failing-element run. -/
theorem phase2_failure_progress_witness :
    (processAudio envElementFails readyModel).final =
      { readyModel with
          state := AppState.ERROR
          storyboard := some sbOneElement
          progress := 100
          error := some (errMessage "boom") } ∧
    elemImage (processAudio envElementFails readyModel).final 0 =
      ({ name := "Hero", description := "the hero", imageUrl := none } : VisualElement).imageUrl :=
  phase2_failure_progress envElementFails readyModel
    { name := "song.mp3", type := "audio/mpeg" } sbOneElement
    { name := "Hero", description := "the hero", imageUrl := none } "boom"
    rfl rfl rfl rfl

/-! ### Phase loops leave state, error and audio fields untouched -/

lemma phase2_state (env : RunEnv) (total : Nat) :
    ∀ (rest : List VisualElement) (i : Nat) (updated : List VisualElement)
      (m : Model) (s : AppState),
      m.state = s →
      (∀ x ∈ (phase2 env total i updated rest m).trace, x.state = s) ∧
      (phase2 env total i updated rest m).final.state = s := by
  intro rest
  induction rest with
  | nil =>
    intro i updated m s hm
    exact ⟨fun x hx => absurd hx (List.not_mem_nil x), hm⟩
  | cons el rest ih =>
    intro i updated m s hm
    match hgen : env.elementGen i with
    | .error e =>
      constructor
      · intro x hx
        simp only [phase2, hgen, List.mem_singleton] at hx
        subst hx
        exact hm
      · simp only [phase2, hgen]
        exact hm
    | .ok url =>
      constructor
      · intro x hx
        simp only [phase2, hgen, List.mem_cons] at hx
        rcases hx with rfl | rfl | hx
        · exact hm
        · exact hm
        · refine (ih _ _ _ s ?_).1 x hx
          exact hm
      · simp only [phase2, hgen]
        refine (ih _ _ _ s ?_).2
        exact hm

lemma phase3_state (env : RunEnv) (sbScenes : List Scene) (total : Nat) :
    ∀ (rest : List Scene) (i : Nat) (updated : List Scene) (m : Model) (s : AppState),
      m.state = s →
      (∀ x ∈ (phase3 env sbScenes total i updated rest m).trace, x.state = s) ∧
      (phase3 env sbScenes total i updated rest m).final.state = s := by
  intro rest
  induction rest with
  | nil =>
    intro i updated m s hm
    exact ⟨fun x hx => absurd hx (List.not_mem_nil x), hm⟩
  | cons sc rest ih =>
    intro i updated m s hm
    match hgen : env.sceneGen i with
    | .error e =>
      constructor
      · intro x hx
        simp only [phase3, hgen, List.mem_singleton] at hx
        subst hx
        exact hm
      · simp only [phase3, hgen]
        exact hm
    | .ok url =>
      constructor
      · intro x hx
        simp only [phase3, hgen, List.mem_cons] at hx
        rcases hx with rfl | rfl | hx
        · exact hm
        · exact hm
        · refine (ih _ _ _ s ?_).1 x hx
          exact hm
      · simp only [phase3, hgen]
        refine (ih _ _ _ s ?_).2
        exact hm

/-! ### Collapsing constant runs of states -/

lemma dedupStates_cons_eq (a : AppState) (l : List AppState) :
    dedupStates (a :: a :: l) = dedupStates (a :: l) := by
  rw [dedupStates, if_pos rfl]

lemma dedupStates_cons_ne (a b : AppState) (h : ¬ a = b) (l : List AppState) :
    dedupStates (a :: b :: l) = a :: dedupStates (b :: l) := by
  rw [dedupStates, if_neg h]

lemma dedupStates_const_append :
    ∀ (l : List AppState) (a : AppState) (rest : List AppState),
      (∀ x ∈ l, x = a) →
      dedupStates (a :: (l ++ rest)) = dedupStates (a :: rest) := by
  intro l
  induction l with
  | nil => intro a rest _; rfl
  | cons b l ih =>
    intro a rest h
    have hb : b = a := h b (List.mem_cons_self b l)
    subst hb
    rw [List.cons_append, dedupStates_cons_eq]
    exact ih b rest fun x hx => h x (List.mem_cons_of_mem b hx)

/-- C7: each run's state sequence, with consecutive duplicates collapsed,
is exactly one of: Idle-Analyzing-Error, Idle-Analyzing-DesigningElements-
Error, Idle-Analyzing-DesigningElements-GeneratingImages-Error, or the full
Idle-Analyzing-DesigningElements-GeneratingImages-Ready — so states advance
in order without skipping or revisiting, Error is entered only from the
three working states, and the run ends in Ready or Error, out of which only
`reset` leads. -/
theorem pipeline_state_machine :
    ∀ (env : RunEnv) (m0 : Model) (f : AudioFile),
      m0.state = AppState.IDLE → m0.audioFile = some f →
      dedupStates ((m0 :: (processAudio env m0).trace).map fun x => x.state) ∈
        [[AppState.IDLE, AppState.ANALYZING, AppState.ERROR],
         [AppState.IDLE, AppState.ANALYZING, AppState.DESIGNING_ELEMENTS, AppState.ERROR],
         [AppState.IDLE, AppState.ANALYZING, AppState.DESIGNING_ELEMENTS,
          AppState.GENERATING_IMAGES, AppState.ERROR],
         [AppState.IDLE, AppState.ANALYZING, AppState.DESIGNING_ELEMENTS,
          AppState.GENERATING_IMAGES, AppState.READY]] ∧
      ((processAudio env m0).final.state = AppState.READY ∨
        (processAudio env m0).final.state = AppState.ERROR) := by
  intro env m0 f hstate haf
  match hana : env.analysis with
  | .error e =>
    constructor
    · simp only [processAudio, haf, hana, catchBlock, List.map_cons, List.map_append,
        List.map_nil, mAnalyzing, mCleared, mProg5, hstate]
      decide
    · simp only [processAudio, haf, hana, catchBlock]
      exact Or.inr trivial
  | .ok sb =>
    have h2 := phase2_state env sb.production_design.recurring_elements.length
      sb.production_design.recurring_elements 0 [] (mDesigning m0 sb)
      AppState.DESIGNING_ELEMENTS rfl
    have h2t : ∀ y ∈ ((phase2Start env m0 sb).trace.map fun x => x.state),
        y = AppState.DESIGNING_ELEMENTS := by
      intro y hy
      obtain ⟨x, hx, rfl⟩ := List.mem_map.mp hy
      exact h2.1 x hx
    have h2f : (phase2Start env m0 sb).final.state = AppState.DESIGNING_ELEMENTS := h2.2
    match h2r : (phase2Start env m0 sb).thrown with
    | some e =>
      constructor
      · simp only [processAudio, haf, hana, h2r, catchBlock, List.map_cons, List.map_append,
          List.map_nil, List.cons_append, List.nil_append, List.append_assoc,
          mAnalyzing, mCleared, mProg5, mStored, mDesigning, hstate, h2f]
        rw [dedupStates_cons_ne _ _ (by decide), dedupStates_cons_eq, dedupStates_cons_eq,
          dedupStates_cons_eq, dedupStates_cons_ne _ _ (by decide),
          dedupStates_const_append _ _ _ h2t]
        simp [dedupStates]
      · simp only [processAudio, haf, hana, h2r, catchBlock]
        exact Or.inr trivial
    | none =>
      have h3 := phase3_state env sb.scenes sb.scenes.length sb.scenes 0 []
        (mGenerating env m0 sb) AppState.GENERATING_IMAGES rfl
      have h3t : ∀ y ∈ ((phase3Start env m0 sb).trace.map fun x => x.state),
          y = AppState.GENERATING_IMAGES := by
        intro y hy
        obtain ⟨x, hx, rfl⟩ := List.mem_map.mp hy
        exact h3.1 x hx
      have h3f : (phase3Start env m0 sb).final.state = AppState.GENERATING_IMAGES := h3.2
      match h3r : (phase3Start env m0 sb).thrown with
      | some e =>
        constructor
        · simp only [processAudio, haf, hana, h2r, h3r, catchBlock, List.map_cons,
            List.map_append, List.map_nil, List.cons_append, List.nil_append,
            List.append_assoc, mAnalyzing, mCleared, mProg5, mStored, mDesigning,
            mGenerating, hstate, h3f]
          rw [dedupStates_cons_ne _ _ (by decide), dedupStates_cons_eq, dedupStates_cons_eq,
            dedupStates_cons_eq, dedupStates_cons_ne _ _ (by decide),
            dedupStates_const_append _ _ _ h2t,
            dedupStates_cons_ne _ _ (by decide),
            dedupStates_const_append _ _ _ h3t]
          simp [dedupStates]
        · simp only [processAudio, haf, hana, h2r, h3r, catchBlock]
          exact Or.inr trivial
      | none =>
        constructor
        · simp only [processAudio, haf, hana, h2r, h3r, mReady, List.map_cons,
            List.map_append, List.map_nil, List.cons_append, List.nil_append,
            List.append_assoc, mAnalyzing, mCleared, mProg5, mStored, mDesigning,
            mGenerating, hstate, h3f]
          rw [dedupStates_cons_ne _ _ (by decide), dedupStates_cons_eq, dedupStates_cons_eq,
            dedupStates_cons_eq, dedupStates_cons_ne _ _ (by decide),
            dedupStates_const_append _ _ _ h2t,
            dedupStates_cons_ne _ _ (by decide),
            dedupStates_const_append _ _ _ h3t]
          simp [dedupStates]
        · simp only [processAudio, haf, hana, h2r, h3r, mReady]
          exact Or.inl trivial

/-- Witness for C7 at the concrete single-failing-element run. -/
theorem pipeline_state_machine_witness :
    dedupStates ((readyModel :: (processAudio envElementFails readyModel).trace).map
        fun x => x.state) ∈
      [[AppState.IDLE, AppState.ANALYZING, AppState.ERROR],
       [AppState.IDLE, AppState.ANALYZING, AppState.DESIGNING_ELEMENTS, AppState.ERROR],
       [AppState.IDLE, AppState.ANALYZING, AppState.DESIGNING_ELEMENTS,
        AppState.GENERATING_IMAGES, AppState.ERROR],
       [AppState.IDLE, AppState.ANALYZING, AppState.DESIGNING_ELEMENTS,
        AppState.GENERATING_IMAGES, AppState.READY]] ∧
    ((processAudio envElementFails readyModel).final.state = AppState.READY ∨
      (processAudio envElementFails readyModel).final.state = AppState.ERROR) :=
  pipeline_state_machine envElementFails readyModel
    { name := "song.mp3", type := "audio/mpeg" } rfl rfl


def sbTwoElements : Storyboard :=
  { title := "T2"
    production_design :=
      { art_style := "noir"
        recurring_elements :=
          [ { name := "A", description := "a", imageUrl := none },
            { name := "B", description := "b", imageUrl := none } ] }
    scenes := [sceneAt 0 "s0"] }

def envTwoElements : RunEnv :=
  { analysis := .ok sbTwoElements
    elementGen := fun _ => .ok "imgE"
    sceneGen := fun _ => .ok "imgS" }

/-- C4 counterexample: in the two-element run, the snapshot published right
after the first element's image arrives (trace index 6) is in Phase 2
(state DESIGNING_ELEMENTS) and its storyboard holds only ONE recurring
element of the two of the Phase 1 storyboard: the not-yet-processed element
is absent from the snapshot, not merely lacking an image. -/
theorem phase2_snapshot_drops_elements :
    sbTwoElements.production_design.recurring_elements.length = 2 ∧
    envTwoElements.analysis.toOption = some sbTwoElements ∧
    ((processAudio envTwoElements readyModel).trace.get? 6).map
        (fun x => (x.state, x.storyboard.map fun s =>
          s.production_design.recurring_elements.length)) =
      some (AppState.DESIGNING_ELEMENTS, some 1) := by
  decide

/-! ### The shape of published snapshots -/

/-- Element `u` is element `o` enriched with a generated image. -/
def imagedOf (o u : VisualElement) : Prop :=
  u.name = o.name ∧ u.description = o.description ∧ u.imageUrl.isSome = true

/-- Scene `u` is scene `o` enriched with a generated image. -/
def imagedScene (o u : Scene) : Prop :=
  u.timestamp = o.timestamp ∧ u.description = o.description ∧
  u.visual_prompt = o.visual_prompt ∧ u.timing_rationale = o.timing_rationale ∧
  u.imageUrl.isSome = true

/-- What a Phase 2 snapshot's storyboard actually looks like relative to
the Phase 1 storyboard `sb`: title, art style and scenes unchanged, and the
elements either still the untouched Phase 1 array or the already-processed
prefix, each entry imaged. -/
def phase2Snapshot (sb s : Storyboard) : Prop :=
  s.title = sb.title ∧
  s.production_design.art_style = sb.production_design.art_style ∧
  s.scenes = sb.scenes ∧
  (s.production_design.recurring_elements = sb.production_design.recurring_elements ∨
    ∃ n, List.Forall₂ imagedOf (sb.production_design.recurring_elements.take n)
      s.production_design.recurring_elements)

/-- What a Phase 3 snapshot's storyboard looks like relative to `sb`:
title and art style unchanged, every element imaged, and the scenes a fully
imaged prefix followed by the untouched Phase 1 scenes. -/
def phase3Snapshot (sb s : Storyboard) : Prop :=
  s.title = sb.title ∧
  s.production_design.art_style = sb.production_design.art_style ∧
  List.Forall₂ imagedOf sb.production_design.recurring_elements
    s.production_design.recurring_elements ∧
  ∃ n pre, List.Forall₂ imagedScene (sb.scenes.take n) pre ∧
    s.scenes = pre ++ sb.scenes.drop n

lemma phase2_shape (env : RunEnv) (sb : Storyboard) :
    ∀ (rest updated : List VisualElement) (i : Nat) (m : Model) (s : Storyboard),
      m.storyboard = some s →
      s.title = sb.title →
      s.production_design.art_style = sb.production_design.art_style →
      s.scenes = sb.scenes →
      List.Forall₂ imagedOf (sb.production_design.recurring_elements.take i) updated →
      rest = sb.production_design.recurring_elements.drop i →
      (s.production_design.recurring_elements = updated ∨
        (s.production_design.recurring_elements = sb.production_design.recurring_elements ∧
          updated = [])) →
      (∀ x ∈ (phase2 env sb.production_design.recurring_elements.length i updated rest m).trace,
        ∃ s', x.storyboard = some s' ∧ phase2Snapshot sb s') ∧
      (∃ s', (phase2 env sb.production_design.recurring_elements.length i updated rest
          m).final.storyboard = some s' ∧ phase2Snapshot sb s') ∧
      ((phase2 env sb.production_design.recurring_elements.length i updated rest m).thrown
          = none →
        ∃ s', (phase2 env sb.production_design.recurring_elements.length i updated rest
            m).final.storyboard = some s' ∧
          s'.title = sb.title ∧
          s'.production_design.art_style = sb.production_design.art_style ∧
          s'.scenes = sb.scenes ∧
          List.Forall₂ imagedOf sb.production_design.recurring_elements
            s'.production_design.recurring_elements) := by
  intro rest
  induction rest with
  | nil =>
    intro updated i m s h1 h2 h3 h4 h5 h6 h7
    have htake : sb.production_design.recurring_elements.take i =
        sb.production_design.recurring_elements := by
      refine List.take_of_length_le ?_
      have := List.drop_eq_nil_iff.mp h6.symm
      omega
    rw [htake] at h5
    refine ⟨fun x hx => absurd hx (List.not_mem_nil x), ⟨s, h1, h2, h3, h4, ?_⟩, fun _ => ?_⟩
    · rcases h7 with h7 | ⟨h7, _⟩
      · exact Or.inr ⟨i, by rw [h7, htake]; exact h5⟩
      · exact Or.inl h7
    · rcases h7 with h7 | ⟨h7, hup⟩
      · exact ⟨s, h1, h2, h3, h4, by rw [h7]; exact h5⟩
      · subst hup
        have hnil : sb.production_design.recurring_elements = [] :=
          List.forall₂_nil_right_iff.mp h5
        exact ⟨s, h1, h2, h3, h4, by rw [h7, hnil]; exact List.Forall₂.nil⟩
  | cons el rest' ih =>
    intro updated i m s h1 h2 h3 h4 h5 h6 h7
    have hel : sb.production_design.recurring_elements[i]? = some el := by
      rw [← List.head?_drop, ← h6]
      rfl
    have hrest' : rest' = sb.production_design.recurring_elements.drop (i + 1) := by
      have hdd : List.drop 1 (sb.production_design.recurring_elements.drop i) =
          sb.production_design.recurring_elements.drop (i + 1) := by
        rw [List.drop_drop]
      rw [← hdd, ← h6]
      rfl
    have hshape : phase2Snapshot sb s := by
      refine ⟨h2, h3, h4, ?_⟩
      rcases h7 with h7 | ⟨h7, _⟩
      · exact Or.inr ⟨i, by rw [h7]; exact h5⟩
      · exact Or.inl h7
    match hgen : env.elementGen i with
    | .error e =>
      refine ⟨?_, ⟨s, ?_, hshape⟩, ?_⟩
      · intro x hx
        simp only [phase2, hgen, List.mem_singleton] at hx
        subst hx
        exact ⟨s, h1, hshape⟩
      · simp only [phase2, hgen]
        exact h1
      · simp only [phase2, hgen]
        intro h
        cases h
    | .ok url =>
      have h5' : List.Forall₂ imagedOf (sb.production_design.recurring_elements.take (i + 1))
          (updated ++ [{ el with imageUrl := some url }]) := by
        rw [List.take_succ, hel]
        exact List.rel_append h5
          (List.Forall₂.cons ⟨rfl, rfl, rfl⟩ List.Forall₂.nil)
      have ihr := ih (updated ++ [{ el with imageUrl := some url }]) (i + 1)
        { m with
            progress := jsRound (100 * (i + 1)) sb.production_design.recurring_elements.length
            storyboard := m.storyboard.map fun p =>
              { p with production_design :=
                  { p.production_design with
                      recurring_elements := updated ++ [{ el with imageUrl := some url }] } } }
        { s with production_design :=
            { s.production_design with
                recurring_elements := updated ++ [{ el with imageUrl := some url }] } }
        (by rw [h1]; rfl) h2 h3 h4 h5' hrest' (Or.inl rfl)
      refine ⟨?_, ?_, ?_⟩
      · intro x hx
        simp only [phase2, hgen, List.mem_cons] at hx
        rcases hx with rfl | rfl | hx
        · exact ⟨s, h1, hshape⟩
        · exact ⟨{ s with production_design :=
              { s.production_design with
                  recurring_elements := updated ++ [{ el with imageUrl := some url }] } },
            by rw [h1]; rfl, h2, h3, h4, Or.inr ⟨i + 1, h5'⟩⟩
        · exact ihr.1 x hx
      · simp only [phase2, hgen]
        exact ihr.2.1
      · simp only [phase2, hgen]
        exact ihr.2.2



lemma phase3_shape (env : RunEnv) (sb : Storyboard) :
    ∀ (rest updatedScenes : List Scene) (i : Nat) (m : Model) (s : Storyboard),
      m.storyboard = some s →
      s.title = sb.title →
      s.production_design.art_style = sb.production_design.art_style →
      List.Forall₂ imagedOf sb.production_design.recurring_elements
        s.production_design.recurring_elements →
      List.Forall₂ imagedScene (sb.scenes.take i) updatedScenes →
      rest = sb.scenes.drop i →
      s.scenes = updatedScenes ++ sb.scenes.drop i →
      (∀ x ∈ (phase3 env sb.scenes sb.scenes.length i updatedScenes rest m).trace,
        ∃ s', x.storyboard = some s' ∧ phase3Snapshot sb s') ∧
      (∃ s', (phase3 env sb.scenes sb.scenes.length i updatedScenes rest
          m).final.storyboard = some s' ∧ phase3Snapshot sb s') := by
  intro rest
  induction rest with
  | nil =>
    intro updatedScenes i m s h1 h2 h3 h4 h5 h6 h7
    exact ⟨fun x hx => absurd hx (List.not_mem_nil x),
      ⟨s, h1, h2, h3, h4, i, updatedScenes, h5, h7⟩⟩
  | cons sc rest' ih =>
    intro updatedScenes i m s h1 h2 h3 h4 h5 h6 h7
    have hsc : sb.scenes[i]? = some sc := by
      rw [← List.head?_drop, ← h6]
      rfl
    have hrest' : rest' = sb.scenes.drop (i + 1) := by
      have hdd : List.drop 1 (sb.scenes.drop i) = sb.scenes.drop (i + 1) := by
        rw [List.drop_drop]
      rw [← hdd, ← h6]
      rfl
    have hshape : phase3Snapshot sb s := ⟨h2, h3, h4, i, updatedScenes, h5, h7⟩
    match hgen : env.sceneGen i with
    | .error e =>
      refine ⟨?_, ⟨s, ?_, hshape⟩⟩
      · intro x hx
        simp only [phase3, hgen, List.mem_singleton] at hx
        subst hx
        exact ⟨s, h1, hshape⟩
      · simp only [phase3, hgen]
        exact h1
    | .ok url =>
      have h5' : List.Forall₂ imagedScene (sb.scenes.take (i + 1))
          (updatedScenes ++ [{ sc with imageUrl := some url }]) := by
        rw [List.take_succ, hsc]
        exact List.rel_append h5
          (List.Forall₂.cons ⟨rfl, rfl, rfl, rfl, rfl⟩ List.Forall₂.nil)
      have ihr := ih (updatedScenes ++ [{ sc with imageUrl := some url }]) (i + 1)
        { m with
            progress := jsRound (100 * (i + 1)) sb.scenes.length
            storyboard := m.storyboard.map fun p =>
              { p with scenes :=
                  updatedScenes ++ [{ sc with imageUrl := some url }] ++
                    sb.scenes.drop (i + 1) } }
        { s with scenes :=
            updatedScenes ++ [{ sc with imageUrl := some url }] ++ sb.scenes.drop (i + 1) }
        (by rw [h1]; rfl) h2 h3 h4 h5' hrest' rfl
      refine ⟨?_, ?_⟩
      · intro x hx
        simp only [phase3, hgen, List.mem_cons] at hx
        rcases hx with rfl | rfl | hx
        · exact ⟨s, h1, hshape⟩
        · exact ⟨{ s with scenes :=
              updatedScenes ++ [{ sc with imageUrl := some url }] ++ sb.scenes.drop (i + 1) },
            by rw [h1]; rfl, h2, h3, h4, i + 1,
            updatedScenes ++ [{ sc with imageUrl := some url }], h5',
            by rw [List.append_assoc]⟩
        · exact ihr.1 x hx
      · simp only [phase3, hgen]
        exact ihr.2

/-- C4 amended: in every published snapshot, a Phase 3 (GENERATING_IMAGES)
snapshot keeps title, art style and the fully imaged element set, and
contains ALL scenes — an imaged prefix followed by the untouched remainder,
so unprocessed scenes are present and merely lack an image; a Phase 2
(DESIGNING_ELEMENTS) snapshot keeps title, art style and scenes unchanged,
but its recurring_elements array is either the untouched Phase 1 array or
only the already-processed imaged prefix — unprocessed elements are absent
from it rather than present without an image. -/
theorem snapshot_phase_shapes :
    ∀ (env : RunEnv) (m0 : Model) (sb : Storyboard),
      m0.state = AppState.IDLE →
      env.analysis = .ok sb →
      ∀ x ∈ (m0 :: (processAudio env m0).trace),
        (x.state = AppState.DESIGNING_ELEMENTS →
          ∃ s, x.storyboard = some s ∧ phase2Snapshot sb s) ∧
        (x.state = AppState.GENERATING_IMAGES →
          ∃ s, x.storyboard = some s ∧ phase3Snapshot sb s) := by
  intro env m0 sb hstate hana
  have habsID : ∀ P : Prop, m0.state = AppState.DESIGNING_ELEMENTS → P := by
    intro P h
    rw [hstate] at h
    exact absurd h (by decide)
  have habsIG : ∀ P : Prop, m0.state = AppState.GENERATING_IMAGES → P := by
    intro P h
    rw [hstate] at h
    exact absurd h (by decide)
  have h2sh := phase2_shape env sb sb.production_design.recurring_elements [] 0
    (mDesigning m0 sb) sb rfl rfl rfl rfl List.Forall₂.nil rfl (Or.inr ⟨rfl, rfl⟩)
  have h2st := phase2_state env sb.production_design.recurring_elements.length
    sb.production_design.recurring_elements 0 [] (mDesigning m0 sb)
    AppState.DESIGNING_ELEMENTS rfl
  have h2fstate : (phase2Start env m0 sb).final.state = AppState.DESIGNING_ELEMENTS := h2st.2
  have h2tstate : ∀ x ∈ (phase2Start env m0 sb).trace,
      x.state = AppState.DESIGNING_ELEMENTS := h2st.1
  match haf : m0.audioFile with
  | none =>
    simp only [processAudio, haf]
    intro x hx
    simp only [List.mem_singleton] at hx
    subst hx
    exact ⟨habsID _, habsIG _⟩
  | some f =>
    match h2r : (phase2Start env m0 sb).thrown with
    | some e =>
      simp only [processAudio, haf, hana, h2r, catchBlock]
      intro x hx
      simp only [List.cons_append, List.nil_append, List.mem_cons, List.mem_append,
        List.not_mem_nil, or_false, false_or, or_assoc] at hx
      rcases hx with rfl | rfl | rfl | rfl | rfl | rfl | hx | rfl | rfl
      · exact ⟨habsID _, habsIG _⟩
      · exact ⟨fun h => AppState.noConfusion h, fun h => AppState.noConfusion h⟩
      · exact ⟨fun h => AppState.noConfusion h, fun h => AppState.noConfusion h⟩
      · exact ⟨fun h => AppState.noConfusion h, fun h => AppState.noConfusion h⟩
      · exact ⟨fun h => AppState.noConfusion h, fun h => AppState.noConfusion h⟩
      · exact ⟨fun _ => ⟨sb, rfl, rfl, rfl, rfl, Or.inl rfl⟩,
          fun h => AppState.noConfusion h⟩
      · exact ⟨fun _ => h2sh.1 x hx,
          fun h => AppState.noConfusion ((h2tstate x hx).symm.trans h)⟩
      · exact ⟨fun _ => h2sh.2.1,
          fun h => AppState.noConfusion (h2fstate.symm.trans h)⟩
      · exact ⟨fun h => AppState.noConfusion h, fun h => AppState.noConfusion h⟩
    | none =>
      obtain ⟨s', hs'eq, hs'title, hs'style, hs'scenes, hs'forall⟩ := h2sh.2.2 h2r
      have h3sh := phase3_shape env sb sb.scenes [] 0 (mGenerating env m0 sb) s'
        hs'eq hs'title hs'style hs'forall List.Forall₂.nil rfl
        (by rw [hs'scenes]; rfl)
      have h3st := phase3_state env sb.scenes sb.scenes.length sb.scenes 0 []
        (mGenerating env m0 sb) AppState.GENERATING_IMAGES rfl
      have h3fstate : (phase3Start env m0 sb).final.state = AppState.GENERATING_IMAGES := h3st.2
      have h3tstate : ∀ x ∈ (phase3Start env m0 sb).trace,
          x.state = AppState.GENERATING_IMAGES := h3st.1
      have hshape3 : phase3Snapshot sb s' :=
        ⟨hs'title, hs'style, hs'forall, 0, [], List.Forall₂.nil, by rw [hs'scenes]; rfl⟩
      match h3r : (phase3Start env m0 sb).thrown with
      | some e =>
        simp only [processAudio, haf, hana, h2r, h3r, catchBlock]
        intro x hx
        simp only [List.cons_append, List.nil_append, List.mem_cons, List.mem_append,
          List.not_mem_nil, or_false, false_or, or_assoc] at hx
        rcases hx with rfl | rfl | rfl | rfl | rfl | rfl | hx | rfl | hx | rfl | rfl
        · exact ⟨habsID _, habsIG _⟩
        · exact ⟨fun h => AppState.noConfusion h, fun h => AppState.noConfusion h⟩
        · exact ⟨fun h => AppState.noConfusion h, fun h => AppState.noConfusion h⟩
        · exact ⟨fun h => AppState.noConfusion h, fun h => AppState.noConfusion h⟩
        · exact ⟨fun h => AppState.noConfusion h, fun h => AppState.noConfusion h⟩
        · exact ⟨fun _ => ⟨sb, rfl, rfl, rfl, rfl, Or.inl rfl⟩,
            fun h => AppState.noConfusion h⟩
        · exact ⟨fun _ => h2sh.1 x hx,
          fun h => AppState.noConfusion ((h2tstate x hx).symm.trans h)⟩
        · exact ⟨fun h => AppState.noConfusion h,
            fun _ => ⟨s', hs'eq, hshape3⟩⟩
        · exact ⟨fun h => AppState.noConfusion ((h3tstate x hx).symm.trans h),
            fun _ => h3sh.1 x hx⟩
        · exact ⟨fun h => AppState.noConfusion (h3fstate.symm.trans h),
            fun _ => h3sh.2⟩
        · exact ⟨fun h => AppState.noConfusion h, fun h => AppState.noConfusion h⟩
      | none =>
        simp only [processAudio, haf, hana, h2r, h3r, mReady]
        intro x hx
        simp only [List.cons_append, List.nil_append, List.mem_cons, List.mem_append,
          List.not_mem_nil, or_false, false_or, or_assoc] at hx
        rcases hx with rfl | rfl | rfl | rfl | rfl | rfl | hx | rfl | hx | rfl
        · exact ⟨habsID _, habsIG _⟩
        · exact ⟨fun h => AppState.noConfusion h, fun h => AppState.noConfusion h⟩
        · exact ⟨fun h => AppState.noConfusion h, fun h => AppState.noConfusion h⟩
        · exact ⟨fun h => AppState.noConfusion h, fun h => AppState.noConfusion h⟩
        · exact ⟨fun h => AppState.noConfusion h, fun h => AppState.noConfusion h⟩
        · exact ⟨fun _ => ⟨sb, rfl, rfl, rfl, rfl, Or.inl rfl⟩,
            fun h => AppState.noConfusion h⟩
        · exact ⟨fun _ => h2sh.1 x hx,
          fun h => AppState.noConfusion ((h2tstate x hx).symm.trans h)⟩
        · exact ⟨fun h => AppState.noConfusion h,
            fun _ => ⟨s', hs'eq, hshape3⟩⟩
        · exact ⟨fun h => AppState.noConfusion ((h3tstate x hx).symm.trans h),
            fun _ => h3sh.1 x hx⟩
        · exact ⟨fun h => AppState.noConfusion h, fun h => AppState.noConfusion h⟩

/-- The Phase 2 snapshot of the two-element run published right after the
first element's image arrived (trace index 6). -/
def snapshotSix : Model :=
  (processAudio envTwoElements readyModel).trace.getD 6 initialModel

/-- Witness for the amended C4: the concrete Phase 2 snapshot at trace
index 6 of the two-element run carries a storyboard of the amended shape. -/
theorem snapshot_phase_shapes_witness :
    ∃ s, snapshotSix.storyboard = some s ∧ phase2Snapshot sbTwoElements s :=
  (snapshot_phase_shapes envTwoElements readyModel sbTwoElements rfl rfl snapshotSix
    (by decide)).1 (by decide)



/-! ### Image monotonicity across published snapshots -/

lemma imageMono_refl (m : Model) : imageMono m m :=
  ⟨fun _ _ h => h, fun _ _ h => h⟩

lemma imageMono_of_storyboard_eq {m m' : Model} (h : m.storyboard = m'.storyboard) :
    imageMono m m' := by
  constructor <;> intro k img hk
  · rw [elemImage, ← h]; exact hk
  · rw [sceneImage, ← h]; exact hk

lemma imageMono_of_none {m : Model} (h : m.storyboard = none) (m' : Model) :
    imageMono m m' := by
  constructor <;> intro k img hk
  · rw [elemImage, h] at hk; cases hk
  · rw [sceneImage, h] at hk; cases hk

lemma chain'_append_last {α : Type} {R : α → α → Prop} (l : List α) (b : α) (l' : List α)
    (h1 : List.Chain' R l) (h2 : l.getLast? = some b) (h3 : List.Chain' R (b :: l')) :
    List.Chain' R (l ++ l') := by
  refine List.Chain'.append h1 (List.chain'_cons'.mp h3).2 ?_
  intro x hx y hy
  rw [h2] at hx
  cases hx
  exact (List.chain'_cons'.mp h3).1 y hy

lemma phase2_chain (env : RunEnv) (total : Nat) :
    ∀ (rest updated : List VisualElement) (i : Nat) (m : Model) (s : Storyboard),
      m.storyboard = some s →
      (s.production_design.recurring_elements = updated ∨
        ∀ el ∈ s.production_design.recurring_elements, el.imageUrl = none) →
      List.Chain' imageMono (m :: (phase2 env total i updated rest m).trace) ∧
      (m :: (phase2 env total i updated rest m).trace).getLast? =
        some (phase2 env total i updated rest m).final := by
  intro rest
  induction rest with
  | nil =>
    intro updated i m s h1 hinv
    exact ⟨List.chain'_singleton m, rfl⟩
  | cons el rest' ih =>
    intro updated i m s h1 hinv
    match hgen : env.elementGen i with
    | .error e =>
      constructor
      · simp only [phase2, hgen]
        exact List.chain'_pair.mpr (imageMono_of_storyboard_eq rfl)
      · simp only [phase2, hgen]
        rfl
    | .ok url =>
      have hstep : ∀ (mm : Model), mm.storyboard = some s →
          imageMono mm
            { mm with
                progress := jsRound (100 * (i + 1)) total
                storyboard := mm.storyboard.map fun p =>
                  { p with production_design :=
                      { p.production_design with
                          recurring_elements :=
                            updated ++ [{ el with imageUrl := some url }] } } } := by
        intro mm hmm
        constructor <;> intro k img hk
        · rw [elemImage, hmm] at hk
          simp only [Option.some_bind] at hk
          rw [elemImage]
          simp only [hmm, Option.map_some', Option.some_bind]
          rcases hinv with hinv | hinv
          · rw [hinv] at hk
            by_cases hlen : k < updated.length
            · rw [List.get?_append hlen]
              exact hk
            · rw [List.get?_eq_none.mpr (by omega)] at hk
              simp at hk
          · match hget : s.production_design.recurring_elements.get? k with
            | none =>
              rw [hget] at hk
              simp at hk
            | some el2 =>
              rw [hget] at hk
              simp only [Option.some_bind] at hk
              rw [hinv el2 (List.get?_mem hget)] at hk
              cases hk
        · rw [sceneImage, hmm] at hk
          simp only [Option.some_bind] at hk
          rw [sceneImage]
          simp only [hmm, Option.map_some', Option.some_bind]
          exact hk
      have ihr := ih (updated ++ [{ el with imageUrl := some url }]) (i + 1)
        { m with
            progress := jsRound (100 * (i + 1)) total
            storyboard := m.storyboard.map fun p =>
              { p with production_design :=
                  { p.production_design with
                      recurring_elements := updated ++ [{ el with imageUrl := some url }] } } }
        { s with production_design :=
            { s.production_design with
                recurring_elements := updated ++ [{ el with imageUrl := some url }] } }
        (by rw [h1]; rfl) (Or.inl rfl)
      constructor
      · simp only [phase2, hgen]
        refine List.chain'_cons.mpr ⟨imageMono_of_storyboard_eq rfl, ?_⟩
        refine List.chain'_cons.mpr ⟨?_, ihr.1⟩
        exact hstep { m with progress := jsRound (100 * (i + 1)) total } h1
      · simp only [phase2, hgen]
        rw [List.getLast?_cons_cons, List.getLast?_cons_cons]
        exact ihr.2


lemma phase3_chain (env : RunEnv) (sbScenes : List Scene) (total : Nat)
    (hclean : ∀ sc ∈ sbScenes, sc.imageUrl = none) :
    ∀ (rest updatedScenes : List Scene) (i : Nat) (m : Model) (s : Storyboard),
      m.storyboard = some s →
      s.scenes = updatedScenes ++ sbScenes.drop i →
      List.Chain' imageMono (m :: (phase3 env sbScenes total i updatedScenes rest m).trace) ∧
      (m :: (phase3 env sbScenes total i updatedScenes rest m).trace).getLast? =
        some (phase3 env sbScenes total i updatedScenes rest m).final := by
  intro rest
  induction rest with
  | nil =>
    intro updatedScenes i m s h1 hs
    exact ⟨List.chain'_singleton m, rfl⟩
  | cons sc rest' ih =>
    intro updatedScenes i m s h1 hs
    match hgen : env.sceneGen i with
    | .error e =>
      constructor
      · simp only [phase3, hgen]
        exact List.chain'_pair.mpr (imageMono_of_storyboard_eq rfl)
      · simp only [phase3, hgen]
        rfl
    | .ok url =>
      have hstep : ∀ (mm : Model), mm.storyboard = some s →
          imageMono mm
            { mm with
                progress := jsRound (100 * (i + 1)) total
                storyboard := mm.storyboard.map fun p =>
                  { p with scenes :=
                      updatedScenes ++ [{ sc with imageUrl := some url }] ++
                        sbScenes.drop (i + 1) } } := by
        intro mm hmm
        constructor <;> intro k img hk
        · rw [elemImage, hmm] at hk
          simp only [Option.some_bind] at hk
          rw [elemImage]
          simp only [hmm, Option.map_some', Option.some_bind]
          exact hk
        · rw [sceneImage, hmm] at hk
          simp only [Option.some_bind] at hk
          rw [sceneImage]
          simp only [hmm, Option.map_some', Option.some_bind]
          rw [hs] at hk
          by_cases hlen : k < updatedScenes.length
          · rw [List.get?_append hlen] at hk
            rw [List.append_assoc, List.get?_append hlen]
            exact hk
          · rw [List.get?_append_right (by omega)] at hk
            match hget : (sbScenes.drop i).get? (k - updatedScenes.length) with
            | none =>
              rw [hget] at hk
              simp at hk
            | some sc2 =>
              rw [hget] at hk
              simp only [Option.some_bind] at hk
              rw [hclean sc2 (List.mem_of_mem_drop (List.get?_mem hget))] at hk
              cases hk
      have ihr := ih (updatedScenes ++ [{ sc with imageUrl := some url }]) (i + 1)
        { m with
            progress := jsRound (100 * (i + 1)) total
            storyboard := m.storyboard.map fun p =>
              { p with scenes :=
                  updatedScenes ++ [{ sc with imageUrl := some url }] ++
                    sbScenes.drop (i + 1) } }
        { s with scenes :=
            updatedScenes ++ [{ sc with imageUrl := some url }] ++ sbScenes.drop (i + 1) }
        (by rw [h1]; rfl) rfl
      constructor
      · simp only [phase3, hgen]
        refine List.chain'_cons.mpr ⟨imageMono_of_storyboard_eq rfl, ?_⟩
        refine List.chain'_cons.mpr ⟨?_, ihr.1⟩
        exact hstep { m with progress := jsRound (100 * (i + 1)) total } h1
      · simp only [phase3, hgen]
        rw [List.getLast?_cons_cons, List.getLast?_cons_cons]
        exact ihr.2

/-- C6: within a run, the published snapshots are monotone in images: for
every recurring element and every scene, once a snapshot carries its
generated image, every later snapshot of the run carries the same image —
images are never replaced or removed. -/
theorem snapshot_image_monotonicity :
    ∀ (env : RunEnv) (m0 : Model),
      m0.storyboard = none →
      (∀ sb, env.analysis = .ok sb → cleanStoryboard sb) →
      List.Pairwise imageMono (m0 :: (processAudio env m0).trace) := by
  intro env m0 hsb hclean
  rw [← List.chain'_iff_pairwise]
  match haf : m0.audioFile with
  | none =>
    simp only [processAudio, haf]
    exact List.chain'_singleton m0
  | some f =>
    match hana : env.analysis with
    | .error e =>
      simp only [processAudio, haf, hana, catchBlock, List.cons_append, List.nil_append]
      refine List.chain'_cons.mpr ⟨imageMono_of_storyboard_eq rfl, ?_⟩
      refine List.chain'_cons.mpr ⟨imageMono_of_storyboard_eq rfl, ?_⟩
      refine List.chain'_cons.mpr ⟨imageMono_of_storyboard_eq rfl, ?_⟩
      refine List.chain'_cons.mpr ⟨imageMono_of_storyboard_eq rfl, ?_⟩
      exact List.chain'_pair.mpr (imageMono_of_storyboard_eq rfl)
    | .ok sb =>
      obtain ⟨hcleanEl, hcleanSc⟩ := hclean sb hana
      have h2ch := phase2_chain env sb.production_design.recurring_elements.length
        sb.production_design.recurring_elements [] 0 (mDesigning m0 sb) sb rfl
        (Or.inr hcleanEl)
      have h2sh := phase2_shape env sb sb.production_design.recurring_elements [] 0
        (mDesigning m0 sb) sb rfl rfl rfl rfl List.Forall₂.nil rfl (Or.inr ⟨rfl, rfl⟩)
      match h2r : (phase2Start env m0 sb).thrown with
      | some e =>
        simp only [processAudio, haf, hana, h2r, catchBlock, List.cons_append,
          List.nil_append, List.append_assoc]
        refine List.chain'_cons.mpr ⟨imageMono_of_storyboard_eq rfl, ?_⟩
        refine List.chain'_cons.mpr ⟨imageMono_of_storyboard_eq rfl, ?_⟩
        refine List.chain'_cons.mpr ⟨imageMono_of_storyboard_eq rfl, ?_⟩
        refine List.chain'_cons.mpr ⟨imageMono_of_none hsb _, ?_⟩
        refine List.chain'_cons.mpr ⟨imageMono_of_storyboard_eq rfl, ?_⟩
        rw [← List.cons_append]
        refine chain'_append_last _ (phase2Start env m0 sb).final _ h2ch.1 h2ch.2 ?_
        refine List.chain'_cons.mpr ⟨imageMono_of_storyboard_eq rfl, ?_⟩
        exact List.chain'_pair.mpr (imageMono_of_storyboard_eq rfl)
      | none =>
        obtain ⟨s', hs'eq, hs'title, hs'style, hs'scenes, hs'forall⟩ := h2sh.2.2 h2r
        have h3ch := phase3_chain env sb.scenes sb.scenes.length hcleanSc
          sb.scenes [] 0 (mGenerating env m0 sb) s' hs'eq hs'scenes
        match h3r : (phase3Start env m0 sb).thrown with
        | some e =>
          simp only [processAudio, haf, hana, h2r, h3r, catchBlock, List.cons_append,
            List.nil_append, List.append_assoc]
          refine List.chain'_cons.mpr ⟨imageMono_of_storyboard_eq rfl, ?_⟩
          refine List.chain'_cons.mpr ⟨imageMono_of_storyboard_eq rfl, ?_⟩
          refine List.chain'_cons.mpr ⟨imageMono_of_storyboard_eq rfl, ?_⟩
          refine List.chain'_cons.mpr ⟨imageMono_of_none hsb _, ?_⟩
          refine List.chain'_cons.mpr ⟨imageMono_of_storyboard_eq rfl, ?_⟩
          rw [← List.cons_append]
          refine chain'_append_last _ (phase2Start env m0 sb).final _ h2ch.1 h2ch.2 ?_
          refine List.chain'_cons.mpr ⟨imageMono_of_storyboard_eq rfl, ?_⟩
          rw [← List.cons_append]
          refine chain'_append_last _ (phase3Start env m0 sb).final _ h3ch.1 h3ch.2 ?_
          refine List.chain'_cons.mpr ⟨imageMono_of_storyboard_eq rfl, ?_⟩
          exact List.chain'_pair.mpr (imageMono_of_storyboard_eq rfl)
        | none =>
          simp only [processAudio, haf, hana, h2r, h3r, mReady, List.cons_append,
            List.nil_append, List.append_assoc]
          refine List.chain'_cons.mpr ⟨imageMono_of_storyboard_eq rfl, ?_⟩
          refine List.chain'_cons.mpr ⟨imageMono_of_storyboard_eq rfl, ?_⟩
          refine List.chain'_cons.mpr ⟨imageMono_of_storyboard_eq rfl, ?_⟩
          refine List.chain'_cons.mpr ⟨imageMono_of_none hsb _, ?_⟩
          refine List.chain'_cons.mpr ⟨imageMono_of_storyboard_eq rfl, ?_⟩
          rw [← List.cons_append]
          refine chain'_append_last _ (phase2Start env m0 sb).final _ h2ch.1 h2ch.2 ?_
          refine List.chain'_cons.mpr ⟨imageMono_of_storyboard_eq rfl, ?_⟩
          rw [← List.cons_append]
          refine chain'_append_last _ (phase3Start env m0 sb).final _ h3ch.1 h3ch.2 ?_
          exact List.chain'_pair.mpr (imageMono_of_storyboard_eq rfl)

/-- Witness for C6 at the concrete two-element run. -/
theorem snapshot_image_monotonicity_witness :
    List.Pairwise imageMono
      (readyModel :: (processAudio envTwoElements readyModel).trace) :=
  snapshot_image_monotonicity envTwoElements readyModel rfl
    (fun sb h => by cases h; exact ⟨by decide, by decide⟩)

end Dreamer
